import Mathlib

/-!
Shallow embedding of the `CarbonTracker` Solidity contract
(`contracts/CarbonTracker.sol` of the repository) and proofs about its
emission-report ledger, carbon-credit registry and digital-twin registry.

Modelling conventions:
* addresses are `Nat` (the zero address is `0`; the EVM guarantees
  `msg.sender` is never the zero address, theorems that need this take it
  as a hypothesis);
* `uint256` values are `Nat`; Solidity 0.8 reverts on overflow, and the only
  arithmetic in the contract that can overflow on realistic states is the
  `pricePerTon * amount` product in `tradeCarbonCredit`, which the embedding
  guards with an explicit `2 ^ 256` bound (the id counters are bounded by the
  number of operations performed and the score arithmetic is bounded by 100,
  so they cannot overflow);
* Solidity `mapping`s are association lists read through `alGet`, which
  returns the zero-initialised default value for an absent key, exactly as
  the EVM does;
* `block.timestamp` is an explicit `ts` parameter of the operations that
  read it;
* attached ether (`msg.value`) is an explicit parameter of
  `tradeCarbonCredit`, and the contract's outgoing `transfer` calls are
  returned as an explicit list of `(recipient, amount)` pairs;
* each `require` failure is a distinct constructor of `CTError`, one per
  revert string of the source.
-/

namespace CarbonTracker

/-- Association-list lookup with a default value, modelling a Solidity
`mapping`: absent keys read as the zero-initialised default value. -/
def alGet {K V : Type} [BEq K] (m : List (K × V)) (d : V) (k : K) : V :=
  match m.find? (fun p => p.1 == k) with
  | some p => p.2
  | none => d

/-- Association-list store: the new binding shadows any earlier one. -/
def alSet {K V : Type} (m : List (K × V)) (k : K) (v : V) : List (K × V) :=
  (k, v) :: m

/-- The `CreditType` enumeration of the contract; the first member is the
Solidity default value. -/
inductive CreditType where
  | RENEWABLE_ENERGY
  | FOREST_CONSERVATION
  | CARBON_CAPTURE
  | ENERGY_EFFICIENCY
deriving DecidableEq, Repr, Inhabited

/-- One error constructor per distinct `require` / revert of the contract.
Mapping to the specification's error taxonomy: `invalidAmount`,
`invalidVintage` and `scoreTooHigh` are ValidationError; `invalidReportId`
and `invalidCreditId` are NotFoundError; `notAuthorizedVerifier`,
`notTwinOwner`, `notCreditOwner` and `notContractOwner` are
AuthorizationError; `alreadyVerified` is AlreadyVerifiedError;
`alreadyRetired` is AlreadyRetiredError; `twinAlreadyExists` is
DuplicateKeyError; `insufficientAmount` is InsufficientAmountError;
`insufficientPayment` is InsufficientPaymentError; `selfTrade` is
SelfTradeError; `twinNotActive` is InactiveError; `overflow` is a
Solidity 0.8 checked-arithmetic revert. -/
inductive CTError where
  | notAuthorizedVerifier
  | invalidReportId
  | scoreTooHigh
  | alreadyVerified
  | twinAlreadyExists
  | notTwinOwner
  | twinNotActive
  | invalidAmount
  | invalidVintage
  | invalidCreditId
  | alreadyRetired
  | insufficientAmount
  | insufficientPayment
  | selfTrade
  | notCreditOwner
  | notContractOwner
  | overflow
deriving DecidableEq, Repr

/-- The `EmissionReport` struct of the contract. -/
structure EmissionReport where
  id : Nat
  company : Nat
  facilityId : String
  emissionAmount : Nat
  productionVolume : Nat
  energySources : List String
  timestamp : Nat
  verified : Bool
  verificationScore : Nat
  ipfsHash : String
  verifier : Nat
deriving DecidableEq, Repr

/-- The `CarbonCredit` struct of the contract. -/
structure CarbonCredit where
  id : Nat
  owner : Nat
  amount : Nat
  pricePerTon : Nat
  certificationHash : String
  projectDetails : String
  retired : Bool
  vintage : Nat
  creditType : CreditType
deriving DecidableEq, Repr

/-- The `DigitalTwin` struct of the contract. -/
structure DigitalTwin where
  twinId : String
  owner : Nat
  facilityType : String
  baselineEmissions : Nat
  currentEmissions : Nat
  lastUpdated : Nat
  active : Bool
  dataHash : String
deriving DecidableEq, Repr

/-- Zero-initialised `EmissionReport`, the value a Solidity mapping returns
for an absent key. -/
def defaultReport : EmissionReport :=
  { id := 0, company := 0, facilityId := "", emissionAmount := 0,
    productionVolume := 0, energySources := [], timestamp := 0,
    verified := false, verificationScore := 0, ipfsHash := "", verifier := 0 }

/-- Zero-initialised `CarbonCredit`. -/
def defaultCredit : CarbonCredit :=
  { id := 0, owner := 0, amount := 0, pricePerTon := 0,
    certificationHash := "", projectDetails := "", retired := false,
    vintage := 0, creditType := .RENEWABLE_ENERGY }

/-- Zero-initialised `DigitalTwin`. -/
def defaultTwin : DigitalTwin :=
  { twinId := "", owner := 0, facilityType := "", baselineEmissions := 0,
    currentEmissions := 0, lastUpdated := 0, active := false, dataHash := "" }

/-- Full storage of the `CarbonTracker` contract: the two `Counters`, every
mapping, and the `Ownable` owner. -/
structure ContractState where
  emissionReportIds : Nat
  carbonCreditIds : Nat
  emissionReports : List (Nat × EmissionReport)
  carbonCredits : List (Nat × CarbonCredit)
  digitalTwins : List (String × DigitalTwin)
  companyReports : List (Nat × List Nat)
  ownedCredits : List (Nat × List Nat)
  companyTwins : List (Nat × List String)
  authorizedVerifiers : List (Nat × Bool)
  companyScores : List (Nat × Nat)
  contractOwner : Nat
deriving DecidableEq, Repr

/-- Reading `emissionReports[reportId]`. -/
def getReport (s : ContractState) (reportId : Nat) : EmissionReport :=
  alGet s.emissionReports defaultReport reportId

/-- Reading `carbonCredits[creditId]`. -/
def getCredit (s : ContractState) (creditId : Nat) : CarbonCredit :=
  alGet s.carbonCredits defaultCredit creditId

/-- Reading `digitalTwins[twinId]`. -/
def getTwin (s : ContractState) (twinId : String) : DigitalTwin :=
  alGet s.digitalTwins defaultTwin twinId

/-- Reading `authorizedVerifiers[a]`. -/
def isVerifier (s : ContractState) (a : Nat) : Bool :=
  alGet s.authorizedVerifiers false a

/-- Reading `companyScores[a]`. -/
def scoreOf (s : ContractState) (a : Nat) : Nat :=
  alGet s.companyScores 0 a

/-- The constructor: the deployer becomes `Ownable` owner and is marked as
an authorized verifier; every counter and mapping starts zeroed. -/
def initState (deployer : Nat) : ContractState :=
  { emissionReportIds := 0, carbonCreditIds := 0, emissionReports := [],
    carbonCredits := [], digitalTwins := [], companyReports := [],
    ownedCredits := [], companyTwins := [], authorizedVerifiers := [(deployer, true)],
    companyScores := [], contractOwner := deployer }

/-- The contract's current-year computation `block.timestamp / 365 days + 1970`
(`365 days` is `31536000` seconds; leap years are ignored by the source). -/
def currentYear (ts : Nat) : Nat :=
  ts / (365 * 86400) + 1970

/-- The `reportEmissions` function: always succeeds, assigns the next report
id, stores the report unverified, and appends the id to the caller's index.
Returns the new state and the new report id. -/
def reportEmissions (s : ContractState) (sender ts : Nat) (facilityId : String)
    (emissionAmount productionVolume : Nat) (energySources : List String)
    (ipfsHash : String) : ContractState × Nat :=
  let newReportId := s.emissionReportIds + 1
  let report : EmissionReport :=
    { id := newReportId, company := sender, facilityId := facilityId,
      emissionAmount := emissionAmount, productionVolume := productionVolume,
      energySources := energySources, timestamp := ts, verified := false,
      verificationScore := 0, ipfsHash := ipfsHash, verifier := 0 }
  ({ s with
      emissionReportIds := newReportId,
      emissionReports := alSet s.emissionReports newReportId report,
      companyReports := alSet s.companyReports sender
        (alGet s.companyReports [] sender ++ [newReportId]) }, newReportId)

/-- The successful-case state of `verifyEmissionReport`: the report is marked
verified with the given score and verifier, and the reporting company's
sustainability score becomes `(old + score) / 2` if `passed`, else `old / 2`. -/
def verifiedState (s : ContractState) (sender reportId verificationScore : Nat)
    (passed : Bool) : ContractState :=
  let report := getReport s reportId
  let company := report.company
  let newScore :=
    if passed then (scoreOf s company + verificationScore) / 2
    else scoreOf s company / 2
  { s with
      emissionReports := alSet s.emissionReports reportId
        { report with
            verified := true
            verificationScore := verificationScore
            verifier := sender },
      companyScores := alSet s.companyScores company newScore }

/-- The `verifyEmissionReport` function with its checks in source order:
the `onlyVerifier` modifier, the `validReport` modifier
(`reportId <= _emissionReportIds.current()` — note the missing lower bound,
so `reportId = 0` passes), the score range check, and the
already-verified check. -/
def verifyEmissionReport (s : ContractState) (sender reportId verificationScore : Nat)
    (passed : Bool) : Except CTError ContractState :=
  if isVerifier s sender = false then .error .notAuthorizedVerifier
  else if s.emissionReportIds < reportId then .error .invalidReportId
  else if 100 < verificationScore then .error .scoreTooHigh
  else if (getReport s reportId).verified then .error .alreadyVerified
  else .ok (verifiedState s sender reportId verificationScore passed)

/-- The successful-case state of `createDigitalTwin`. -/
def twinCreatedState (s : ContractState) (sender ts : Nat) (twinId facilityType : String)
    (baselineEmissions : Nat) (dataHash : String) : ContractState :=
  let twin : DigitalTwin :=
    { twinId := twinId, owner := sender, facilityType := facilityType,
      baselineEmissions := baselineEmissions, currentEmissions := baselineEmissions,
      lastUpdated := ts, active := true, dataHash := dataHash }
  { s with
      digitalTwins := alSet s.digitalTwins twinId twin,
      companyTwins := alSet s.companyTwins sender
        (alGet s.companyTwins [] sender ++ [twinId]) }

/-- The `createDigitalTwin` function. Existence is tested exactly as the
source does: `bytes(digitalTwins[twinId].twinId).length == 0`, i.e. the
stored `twinId` string is empty — which means a twin stored under the empty
string key is invisible to this check. -/
def createDigitalTwin (s : ContractState) (sender ts : Nat) (twinId facilityType : String)
    (baselineEmissions : Nat) (dataHash : String) : Except CTError ContractState :=
  if (getTwin s twinId).twinId ≠ "" then .error .twinAlreadyExists
  else .ok (twinCreatedState s sender ts twinId facilityType baselineEmissions dataHash)

/-- The successful-case state of `updateDigitalTwin`. -/
def twinUpdatedState (s : ContractState) (ts : Nat) (twinId : String)
    (newEmissions : Nat) : ContractState :=
  { s with
      digitalTwins := alSet s.digitalTwins twinId
        { getTwin s twinId with currentEmissions := newEmissions, lastUpdated := ts } }

/-- The `updateDigitalTwin` function. The source has no existence check: its
first `require` compares `digitalTwins[twinId].owner` (the zero address for
an absent twin) with the caller. -/
def updateDigitalTwin (s : ContractState) (sender ts : Nat) (twinId : String)
    (newEmissions : Nat) : Except CTError ContractState :=
  if (getTwin s twinId).owner ≠ sender then .error .notTwinOwner
  else if (getTwin s twinId).active = false then .error .twinNotActive
  else .ok (twinUpdatedState s ts twinId newEmissions)

/-- The successful-case state of `mintCarbonCredit`; the fresh lot gets id
`carbonCreditIds + 1`. -/
def mintedState (s : ContractState) (sender amount pricePerTon : Nat)
    (certificationHash projectDetails : String) (vintage : Nat)
    (creditType : CreditType) : ContractState :=
  let newCreditId := s.carbonCreditIds + 1
  let credit : CarbonCredit :=
    { id := newCreditId, owner := sender, amount := amount,
      pricePerTon := pricePerTon, certificationHash := certificationHash,
      projectDetails := projectDetails, retired := false, vintage := vintage,
      creditType := creditType }
  { s with
      carbonCreditIds := newCreditId,
      carbonCredits := alSet s.carbonCredits newCreditId credit,
      ownedCredits := alSet s.ownedCredits sender
        (alGet s.ownedCredits [] sender ++ [newCreditId]) }

/-- The `mintCarbonCredit` function: requires `amount > 0` and
`vintage >= 2020 && vintage <= block.timestamp / 365 days + 1970`.
Returns the new state and the new credit id. -/
def mintCarbonCredit (s : ContractState) (sender ts amount pricePerTon : Nat)
    (certificationHash projectDetails : String) (vintage : Nat)
    (creditType : CreditType) : Except CTError (ContractState × Nat) :=
  if amount = 0 then .error .invalidAmount
  else if vintage < 2020 ∨ currentYear ts < vintage then .error .invalidVintage
  else .ok (mintedState s sender amount pricePerTon certificationHash
      projectDetails vintage creditType, s.carbonCreditIds + 1)

/-- The `_removeFromOwnedCredits` helper: finds the first occurrence of
`creditId`, overwrites it with the last element, and pops the last element;
does nothing when `creditId` is absent. -/
def removeFromOwnedCredits (credits : List Nat) (creditId : Nat) : List Nat :=
  match credits.findIdx? (fun c => c == creditId) with
  | none => credits
  | some i => (credits.set i (credits.getLastD 0)).dropLast

/-- The full-trade branch of `tradeCarbonCredit` (`amount == credit.amount`):
ownership of the lot moves to the caller and the owned-credit indices are
updated. -/
def fullTradeState (s : ContractState) (sender creditId : Nat) : ContractState :=
  let credit := getCredit s creditId
  let previousOwner := credit.owner
  let removed := removeFromOwnedCredits (alGet s.ownedCredits [] previousOwner) creditId
  let owned1 := alSet s.ownedCredits previousOwner removed
  { s with
      carbonCredits := alSet s.carbonCredits creditId { credit with owner := sender },
      ownedCredits := alSet owned1 sender (alGet owned1 [] sender ++ [creditId]) }

/-- The partial-trade branch of `tradeCarbonCredit` (`amount != credit.amount`):
the source lot's amount is decremented and a fresh lot with the traded amount
is created for the caller, copying price, certification, vintage and type. -/
def partialTradeState (s : ContractState) (sender creditId amount : Nat) : ContractState :=
  let credit := getCredit s creditId
  let newCreditId := s.carbonCreditIds + 1
  let newCredit : CarbonCredit :=
    { id := newCreditId, owner := sender, amount := amount,
      pricePerTon := credit.pricePerTon,
      certificationHash := credit.certificationHash,
      projectDetails := credit.projectDetails, retired := false,
      vintage := credit.vintage, creditType := credit.creditType }
  { s with
      carbonCreditIds := newCreditId,
      carbonCredits := alSet
        (alSet s.carbonCredits creditId { credit with amount := credit.amount - amount })
        newCreditId newCredit,
      ownedCredits := alSet s.ownedCredits sender
        (alGet s.ownedCredits [] sender ++ [newCreditId]) }

/-- Outgoing ether transfers of a successful `tradeCarbonCredit`: the full
price to the previous owner, and the excess (if any) back to the caller. -/
def tradeTransfers (s : ContractState) (sender msgValue creditId amount : Nat) :
    List (Nat × Nat) :=
  let credit := getCredit s creditId
  let totalPrice := credit.pricePerTon * amount
  if totalPrice < msgValue then
    [(credit.owner, totalPrice), (sender, msgValue - totalPrice)]
  else
    [(credit.owner, totalPrice)]

/-- The `tradeCarbonCredit` function with its checks in source order: the
`validCredit` modifier (`creditId <= _carbonCreditIds.current()` — again no
lower bound, so `creditId = 0` passes — then the retired check), the amount
bound, the Solidity 0.8 overflow check on `pricePerTon * amount`, the
payment bound, and the self-trade check. Returns the new state together with
the list of outgoing ether transfers. -/
def tradeCarbonCredit (s : ContractState) (sender msgValue creditId amount : Nat) :
    Except CTError (ContractState × List (Nat × Nat)) :=
  if s.carbonCreditIds < creditId then .error .invalidCreditId
  else if (getCredit s creditId).retired then .error .alreadyRetired
  else if (getCredit s creditId).amount < amount then .error .insufficientAmount
  else if 2 ^ 256 ≤ (getCredit s creditId).pricePerTon * amount then .error .overflow
  else if msgValue < (getCredit s creditId).pricePerTon * amount then .error .insufficientPayment
  else if (getCredit s creditId).owner = sender then .error .selfTrade
  else .ok
    (if amount = (getCredit s creditId).amount then fullTradeState s sender creditId
     else partialTradeState s sender creditId amount,
     tradeTransfers s sender msgValue creditId amount)

/-- The successful-case state of `retireCarbonCredit`: the lot's `retired`
flag is set, nothing else changes. -/
def retiredState (s : ContractState) (creditId : Nat) : ContractState :=
  { s with
      carbonCredits := alSet s.carbonCredits creditId
        { getCredit s creditId with retired := true } }

/-- The `retireCarbonCredit` function: the `validCredit` modifier followed by
the ownership check. -/
def retireCarbonCredit (s : ContractState) (sender creditId : Nat) :
    Except CTError ContractState :=
  if s.carbonCreditIds < creditId then .error .invalidCreditId
  else if (getCredit s creditId).retired then .error .alreadyRetired
  else if (getCredit s creditId).owner ≠ sender then .error .notCreditOwner
  else .ok (retiredState s creditId)

/-- The `addVerifier` function (`onlyOwner`). -/
def addVerifier (s : ContractState) (sender verifier : Nat) :
    Except CTError ContractState :=
  if sender ≠ s.contractOwner then .error .notContractOwner
  else .ok { s with authorizedVerifiers := alSet s.authorizedVerifiers verifier true }

/-- The `removeVerifier` function (`onlyOwner`). -/
def removeVerifier (s : ContractState) (sender verifier : Nat) :
    Except CTError ContractState :=
  if sender ≠ s.contractOwner then .error .notContractOwner
  else .ok { s with authorizedVerifiers := alSet s.authorizedVerifiers verifier false }

/-- One external call to the contract, with its caller, `block.timestamp`
(where the source reads it) and `msg.value` (for the payable function) made
explicit. -/
inductive Op where
  | reportEmissions (sender ts : Nat) (facilityId : String)
      (emissionAmount productionVolume : Nat) (energySources : List String)
      (ipfsHash : String)
  | verifyEmissionReport (sender reportId verificationScore : Nat) (passed : Bool)
  | createDigitalTwin (sender ts : Nat) (twinId facilityType : String)
      (baselineEmissions : Nat) (dataHash : String)
  | updateDigitalTwin (sender ts : Nat) (twinId : String) (newEmissions : Nat)
  | mintCarbonCredit (sender ts amount pricePerTon : Nat)
      (certificationHash projectDetails : String) (vintage : Nat)
      (creditType : CreditType)
  | tradeCarbonCredit (sender msgValue creditId amount : Nat)
  | retireCarbonCredit (sender creditId : Nat)
  | addVerifier (sender verifier : Nat)
  | removeVerifier (sender verifier : Nat)
deriving DecidableEq, Repr

/-- Applying one external call: a reverted call (an `.error` result) leaves
the storage exactly as it was, as the EVM does. -/
def applyOp (s : ContractState) (op : Op) : ContractState :=
  match op with
  | .reportEmissions sender ts fid ea pv es ih =>
      (reportEmissions s sender ts fid ea pv es ih).1
  | .verifyEmissionReport sender rid sc p =>
      match verifyEmissionReport s sender rid sc p with
      | .ok s2 => s2
      | .error _ => s
  | .createDigitalTwin sender ts tid ft be dh =>
      match createDigitalTwin s sender ts tid ft be dh with
      | .ok s2 => s2
      | .error _ => s
  | .updateDigitalTwin sender ts tid ne =>
      match updateDigitalTwin s sender ts tid ne with
      | .ok s2 => s2
      | .error _ => s
  | .mintCarbonCredit sender ts am ppt ch pd v ct =>
      match mintCarbonCredit s sender ts am ppt ch pd v ct with
      | .ok (s2, _) => s2
      | .error _ => s
  | .tradeCarbonCredit sender mv cid am =>
      match tradeCarbonCredit s sender mv cid am with
      | .ok (s2, _) => s2
      | .error _ => s
  | .retireCarbonCredit sender cid =>
      match retireCarbonCredit s sender cid with
      | .ok s2 => s2
      | .error _ => s
  | .addVerifier sender v =>
      match addVerifier s sender v with
      | .ok s2 => s2
      | .error _ => s
  | .removeVerifier sender v =>
      match removeVerifier s sender v with
      | .ok s2 => s2
      | .error _ => s

/-- Running a sequence of external calls. -/
def runOps (s : ContractState) (ops : List Op) : ContractState :=
  ops.foldl applyOp s

/-! ## Result and observation helpers -/

/-- Decidable equality of operation results, for concrete evaluation. -/
instance exceptDecEq {ε α : Type} [DecidableEq ε] [DecidableEq α] :
    DecidableEq (Except ε α) := fun a b =>
  match a, b with
  | .ok x, .ok y =>
      if h : x = y then .isTrue (by rw [h])
      else .isFalse (by intro he; cases he; exact h rfl)
  | .error x, .error y =>
      if h : x = y then .isTrue (by rw [h])
      else .isFalse (by intro he; cases he; exact h rfl)
  | .ok _, .error _ => .isFalse (by intro he; cases he)
  | .error _, .ok _ => .isFalse (by intro he; cases he)

/-- Whether an operation result is a success. -/
def isOkE {α : Type} : Except CTError α → Bool
  | .ok _ => true
  | .error _ => false

/-- The error of a failed operation result, if any. -/
def errOf {α : Type} : Except CTError α → Option CTError
  | .error e => some e
  | .ok _ => none

/-- Whether an error belongs to the specification's ValidationError kind
(bad amount, bad vintage, bad score range). -/
def isValidationError : Option CTError → Bool
  | some .invalidAmount => true
  | some .invalidVintage => true
  | some .scoreTooHigh => true
  | _ => false

/-- Total ether paid to an address by a list of transfers. -/
def paidTo (tr : List (Nat × Nat)) (a : Nat) : Nat :=
  ((tr.filter (fun p => p.1 == a)).map Prod.snd).sum

/-- Whether the credit table holds an entry for this id (the id has been
written at least once). -/
def existsCredit (s : ContractState) (j : Nat) : Bool :=
  (s.carbonCredits.find? (fun p => p.1 == j)).isSome

/-- Whether the twin table holds an entry for this key. -/
def twinStored (s : ContractState) (tid : String) : Bool :=
  (s.digitalTwins.find? (fun p => p.1 == tid)).isSome

/-- Whether an operation is a `tradeCarbonCredit` call. -/
def isTradeOp : Op → Bool
  | .tradeCarbonCredit _ _ _ _ => true
  | _ => false

/-- Whether every `tradeCarbonCredit` call in the list trades a positive
amount. -/
def tradeAmountsPos (ops : List Op) : Bool :=
  ops.all fun op =>
    match op with
    | .tradeCarbonCredit _ _ _ a => decide (0 < a)
    | _ => true

/-! ## Well-formedness of reachable storage

Every stored credit or report key is bounded by its id counter (fresh ids
are counter + 1, hence fresh), and every stored twin records its own key in
its `twinId` field (the contract's existence sentinel). -/

def KeysWF (s : ContractState) : Prop :=
  (∀ p ∈ s.carbonCredits, p.1 ≤ s.carbonCreditIds) ∧
  (∀ p ∈ s.emissionReports, p.1 ≤ s.emissionReportIds) ∧
  (∀ p ∈ s.digitalTwins, p.2.twinId = p.1)

/-- Every credit entry ever stored has a positive amount or is retired; an
inductive invariant of traces whose trades all have positive amounts. -/
def PosInv (s : ContractState) : Prop :=
  ∀ p ∈ s.carbonCredits, 0 < p.2.amount ∨ p.2.retired = true

/-! ## Ghost lineage state for the conservation claim

The contract state does not record which lot a partial trade split off from,
so conservation is stated over the contract state extended with a ghost
`rootMap`: every lot created by a partial split is mapped to the root (mint
ancestor) of its source lot.  Lots with no entry (minted lots and phantom
ids) are their own root. -/

/-- The root (mint ancestor) of a lot id under the ghost map. -/
def rootLookup (m : List (Nat × Nat)) (j : Nat) : Nat :=
  match m.find? (fun p => p.1 == j) with
  | some p => p.2
  | none => j

/-- Contract state plus the ghost split-lineage map. -/
structure GState where
  cs : ContractState
  rootMap : List (Nat × Nat)

/-- Ghost state after deployment. -/
def gInit (d : Nat) : GState :=
  { cs := initState d, rootMap := [] }

/-- Ghost step: the contract state steps by `applyOp`; a successful partial
trade additionally records that the fresh lot descends from the root of its
source lot. -/
def gApplyOp (g : GState) (op : Op) : GState :=
  match op with
  | .tradeCarbonCredit sender mv cid am =>
      match tradeCarbonCredit g.cs sender mv cid am with
      | .error _ => g
      | .ok (s2, _) =>
          if am = (getCredit g.cs cid).amount then { cs := s2, rootMap := g.rootMap }
          else
            { cs := s2,
              rootMap := (g.cs.carbonCreditIds + 1, rootLookup g.rootMap cid) :: g.rootMap }
  | _ => { cs := applyOp g.cs op, rootMap := g.rootMap }

/-- Running a sequence of external calls on the ghost state. -/
def gRunOps (g : GState) (ops : List Op) : GState :=
  ops.foldl gApplyOp g

/-- Sum of the amounts of the lot `r` and of every lot produced by
splitting it, transitively (every stored or phantom id outside the family
contributes zero: absent ids read as the default credit, whose amount is
zero). -/
def familySum (g : GState) (r : Nat) : Nat :=
  Finset.sum (Finset.range (g.cs.carbonCreditIds + 1))
    (fun j => if rootLookup g.rootMap j = r then (getCredit g.cs j).amount else 0)

/-- Ghost-map well-formedness: split children are fresher than their roots
and no fresher than the id counter. -/
def GWF (g : GState) : Prop :=
  ∀ p ∈ g.rootMap, p.2 < p.1 ∧ p.1 ≤ g.cs.carbonCreditIds

/-! ## Concrete fixture states for the witness theorems -/

/-- A state holding one emission report: company 5 reported 1000 kg. -/
def wReportState : ContractState :=
  (reportEmissions (initState 1) 5 0 "facility1" 1000 10 [] "qmhash").1

/-- A state holding one lot: 100 tons at 10 wei per ton, minted by 1. -/
def wMintState : ContractState :=
  applyOp (initState 1)
    (.mintCarbonCredit 1 1600000000 100 10 "cert" "proj" 2020 .RENEWABLE_ENERGY)

/-- State `wMintState` after owner 1 retired lot 1. -/
def wRetiredState : ContractState :=
  applyOp wMintState (.retireCarbonCredit 1 1)

/-- A state where a twin was created under the empty-string key by 1. -/
def wEmptyTwinState : ContractState :=
  applyOp (initState 1) (.createDigitalTwin 1 0 "" "factory" 5 "dh")

/-- A state where a twin was created under the key "plantA" by 1. -/
def wTwinState : ContractState :=
  applyOp (initState 1) (.createDigitalTwin 1 0 "plantA" "factory" 5 "dh")

/-- State `wMintState` after buyer 2 traded away 40 of the 100 tons with exact
excess payment 5 over the price 400. -/
def wTradedState : ContractState :=
  applyOp wMintState (.tradeCarbonCredit 2 405 1 40)

/-- A state holding one lot of 1 ton minted by 1. -/
def wOneTonState : ContractState :=
  applyOp (initState 1)
    (.mintCarbonCredit 1 1600000000 1 3 "cert" "proj" 2020 .RENEWABLE_ENERGY)

/-- A state reached by minting a 1-ton lot and then trading amount 0 of it:
the zero-amount trade takes the partial branch and stores lot 2 with
amount 0. -/
def wZeroTradeState : ContractState :=
  applyOp wOneTonState (.tradeCarbonCredit 2 0 1 0)

/-- State `wReportState` after verifier 1 verified report 1 with score 90, passed. -/
def wVerifiedState : ContractState :=
  applyOp wReportState (.verifyEmissionReport 1 1 90 true)

/-- Trace: mint 100 tons at 10 wei per ton, then buyer 2 trades 40 tons with
payment 405. -/
def wTradeTrace : List Op :=
  [.mintCarbonCredit 1 1600000000 100 10 "cert" "proj" 2020 .RENEWABLE_ENERGY,
   .tradeCarbonCredit 2 405 1 40]

/-- Trace: mint 100 tons, then the owner retires lot 1. -/
def wRetireTrace : List Op :=
  [.mintCarbonCredit 1 1600000000 100 10 "cert" "proj" 2020 .RENEWABLE_ENERGY,
   .retireCarbonCredit 1 1]

/-! ## Basic lemmas about the mapping embedding -/

theorem alGet_alSet_self {K V : Type} [BEq K] [LawfulBEq K]
    (m : List (K × V)) (d : V) (k : K) (v : V) :
    alGet (alSet m k v) d k = v := by
  simp [alGet, alSet, List.find?_cons_of_pos]

theorem alGet_alSet_ne {K V : Type} [BEq K] [LawfulBEq K]
    (m : List (K × V)) (d : V) (k k2 : K) (v : V) (h : k2 ≠ k) :
    alGet (alSet m k v) d k2 = alGet m d k2 := by
  have : ((k, v).1 == k2) = false := by
    simp [beq_eq_false_iff_ne]
    exact fun he => h he.symm
  simp [alGet, alSet, List.find?_cons_of_neg, this]

theorem alGet_default_or_mem {K V : Type} [BEq K] [LawfulBEq K]
    (m : List (K × V)) (d : V) (k : K) :
    alGet m d k = d ∨ ((k, alGet m d k) ∈ m) := by
  unfold alGet
  cases hf : m.find? (fun p => p.1 == k) with
  | none => exact Or.inl rfl
  | some p =>
      right
      have hp := List.mem_of_find?_eq_some hf
      have hk := List.find?_some hf
      have hk2 : p.1 = k := by simpa using hk
      simpa [← hk2] using hp

/-! ## Success characterizations of the operations -/

theorem verify_ok_iff {s : ContractState} {sender rid sc : Nat} {p : Bool}
    {s2 : ContractState} :
    verifyEmissionReport s sender rid sc p = .ok s2 ↔
      isVerifier s sender = true ∧ rid ≤ s.emissionReportIds ∧ sc ≤ 100 ∧
      (getReport s rid).verified = false ∧ s2 = verifiedState s sender rid sc p := by
  unfold verifyEmissionReport
  split_ifs with h1 h2 h3 h4 <;> simp_all <;> first | omega | exact eq_comm | aesop

theorem create_twin_ok_iff {s : ContractState} {sender ts : Nat}
    {tid ft : String} {be : Nat} {dh : String} {s2 : ContractState} :
    createDigitalTwin s sender ts tid ft be dh = .ok s2 ↔
      (getTwin s tid).twinId = "" ∧ s2 = twinCreatedState s sender ts tid ft be dh := by
  unfold createDigitalTwin
  split_ifs with h1 <;> simp_all <;> first | omega | exact eq_comm | aesop

theorem update_twin_ok_iff {s : ContractState} {sender ts : Nat} {tid : String}
    {ne : Nat} {s2 : ContractState} :
    updateDigitalTwin s sender ts tid ne = .ok s2 ↔
      (getTwin s tid).owner = sender ∧ (getTwin s tid).active = true ∧
      s2 = twinUpdatedState s ts tid ne := by
  unfold updateDigitalTwin
  split_ifs with h1 h2 <;> simp_all <;> first | omega | exact eq_comm | aesop

theorem mint_ok_iff {s : ContractState} {sender ts am ppt : Nat} {ch pd : String}
    {v : Nat} {ct : CreditType} {s2 : ContractState} {rid : Nat} :
    mintCarbonCredit s sender ts am ppt ch pd v ct = .ok (s2, rid) ↔
      am ≠ 0 ∧ 2020 ≤ v ∧ v ≤ currentYear ts ∧
      s2 = mintedState s sender am ppt ch pd v ct ∧ rid = s.carbonCreditIds + 1 := by
  unfold mintCarbonCredit
  split_ifs with h1 h2 <;> simp_all <;> first | omega | exact eq_comm | aesop

theorem trade_ok_iff {s : ContractState} {sender mv cid am : Nat}
    {s2 : ContractState} {tr : List (Nat × Nat)} :
    tradeCarbonCredit s sender mv cid am = .ok (s2, tr) ↔
      cid ≤ s.carbonCreditIds ∧ (getCredit s cid).retired = false ∧
      am ≤ (getCredit s cid).amount ∧
      (getCredit s cid).pricePerTon * am < 2 ^ 256 ∧
      (getCredit s cid).pricePerTon * am ≤ mv ∧
      (getCredit s cid).owner ≠ sender ∧
      s2 = (if am = (getCredit s cid).amount then fullTradeState s sender cid
            else partialTradeState s sender cid am) ∧
      tr = tradeTransfers s sender mv cid am := by
  unfold tradeCarbonCredit
  split_ifs with h1 h2 h3 h4 h5 h6 <;> simp_all <;> first | omega | exact eq_comm | aesop

theorem retire_ok_iff {s : ContractState} {sender cid : Nat} {s2 : ContractState} :
    retireCarbonCredit s sender cid = .ok s2 ↔
      cid ≤ s.carbonCreditIds ∧ (getCredit s cid).retired = false ∧
      (getCredit s cid).owner = sender ∧ s2 = retiredState s cid := by
  unfold retireCarbonCredit
  split_ifs with h1 h2 h3 <;> simp_all <;> first | omega | exact eq_comm | aesop

theorem addVerifier_ok_iff {s : ContractState} {sender v : Nat} {s2 : ContractState} :
    addVerifier s sender v = .ok s2 ↔
      sender = s.contractOwner ∧
      s2 = { s with authorizedVerifiers := alSet s.authorizedVerifiers v true } := by
  unfold addVerifier
  split_ifs with h1 <;> simp_all <;> first | omega | exact eq_comm | aesop

theorem removeVerifier_ok_iff {s : ContractState} {sender v : Nat} {s2 : ContractState} :
    removeVerifier s sender v = .ok s2 ↔
      sender = s.contractOwner ∧
      s2 = { s with authorizedVerifiers := alSet s.authorizedVerifiers v false } := by
  unfold removeVerifier
  split_ifs with h1 <;> simp_all <;> first | omega | exact eq_comm | aesop

/-! ## Mapping-entry extraction lemmas -/

theorem getCredit_mem_of_retired {s : ContractState} {cid : Nat}
    (h : (getCredit s cid).retired = true) :
    (cid, getCredit s cid) ∈ s.carbonCredits := by
  rcases alGet_default_or_mem s.carbonCredits defaultCredit cid with hd | hm
  · rw [getCredit, hd] at h
    simp [defaultCredit] at h
  · exact hm

theorem getTwin_mem_of_active {s : ContractState} {tid : String}
    (h : (getTwin s tid).active = true) :
    (tid, getTwin s tid) ∈ s.digitalTwins := by
  rcases alGet_default_or_mem s.digitalTwins defaultTwin tid with hd | hm
  · rw [getTwin, hd] at h
    simp [defaultTwin] at h
  · exact hm

theorem getTwin_mem_of_nonempty {s : ContractState} {tid : String}
    (h : (getTwin s tid).twinId ≠ "") :
    (tid, getTwin s tid) ∈ s.digitalTwins := by
  rcases alGet_default_or_mem s.digitalTwins defaultTwin tid with hd | hm
  · rw [getTwin, hd] at h
    simp [defaultTwin] at h
  · exact hm

/-! ## Preservation of storage well-formedness -/

theorem KeysWF_initState (d : Nat) : KeysWF (initState d) := by
  refine ⟨?_, ?_, ?_⟩ <;> simp [initState]

theorem KeysWF_applyOp (s : ContractState) (op : Op) (hwf : KeysWF s) :
    KeysWF (applyOp s op) := by
  obtain ⟨hc, hr, ht⟩ := hwf
  cases op with
  | reportEmissions sender ts fid ea pv es ih =>
      refine ⟨hc, ?_, ht⟩
      intro p hp
      simp only [applyOp, reportEmissions, alSet, List.mem_cons] at hp
      rcases hp with rfl | hp
      · simp [applyOp, reportEmissions]
      · have := hr p hp
        simp only [applyOp, reportEmissions]
        omega
  | verifyEmissionReport sender rid sc pb =>
      cases h : verifyEmissionReport s sender rid sc pb with
      | error e => simpa only [applyOp, h] using ⟨hc, hr, ht⟩
      | ok s2 =>
          obtain ⟨hv, hrid, hsc, hnv, rfl⟩ := verify_ok_iff.mp h
          simp only [applyOp, h]
          refine ⟨hc, ?_, ht⟩
          intro p hp
          simp only [verifiedState, alSet, List.mem_cons] at hp
          rcases hp with rfl | hp
          · simpa [verifiedState] using hrid
          · simpa [verifiedState] using hr p hp
  | createDigitalTwin sender ts tid ft be dh =>
      cases h : createDigitalTwin s sender ts tid ft be dh with
      | error e => simpa only [applyOp, h] using ⟨hc, hr, ht⟩
      | ok s2 =>
          obtain ⟨hempty, rfl⟩ := create_twin_ok_iff.mp h
          simp only [applyOp, h]
          refine ⟨hc, hr, ?_⟩
          intro p hp
          simp only [twinCreatedState, alSet, List.mem_cons] at hp
          rcases hp with rfl | hp
          · rfl
          · exact ht p hp
  | updateDigitalTwin sender ts tid ne =>
      cases h : updateDigitalTwin s sender ts tid ne with
      | error e => simpa only [applyOp, h] using ⟨hc, hr, ht⟩
      | ok s2 =>
          obtain ⟨hown, hact, rfl⟩ := update_twin_ok_iff.mp h
          simp only [applyOp, h]
          refine ⟨hc, hr, ?_⟩
          intro p hp
          simp only [twinUpdatedState, alSet, List.mem_cons] at hp
          rcases hp with rfl | hp
          · simpa using ht _ (getTwin_mem_of_active hact)
          · exact ht p hp
  | mintCarbonCredit sender ts am ppt ch pd v ct =>
      cases h : mintCarbonCredit s sender ts am ppt ch pd v ct with
      | error e => simpa only [applyOp, h] using ⟨hc, hr, ht⟩
      | ok pr =>
          obtain ⟨s2, rid⟩ := pr
          obtain ⟨ham, hv1, hv2, rfl, rfl⟩ := mint_ok_iff.mp h
          simp only [applyOp, h]
          refine ⟨?_, hr, ht⟩
          intro p hp
          simp only [mintedState, alSet, List.mem_cons] at hp
          rcases hp with rfl | hp
          · simp [mintedState]
          · have := hc p hp
            simp only [mintedState]
            omega
  | tradeCarbonCredit sender mv cid am =>
      cases h : tradeCarbonCredit s sender mv cid am with
      | error e => simpa only [applyOp, h] using ⟨hc, hr, ht⟩
      | ok pr =>
          obtain ⟨s2, tr⟩ := pr
          obtain ⟨hcid, hret, ham, hov, hpay, hown, hs2, htr⟩ := trade_ok_iff.mp h
          simp only [applyOp, h]
          subst hs2
          by_cases hfull : am = (getCredit s cid).amount
          · simp only [if_pos hfull]
            refine ⟨?_, hr, ht⟩
            intro p hp
            simp only [fullTradeState, alSet, List.mem_cons] at hp
            rcases hp with rfl | hp
            · simpa [fullTradeState] using hcid
            · simpa [fullTradeState] using hc p hp
          · simp only [if_neg hfull]
            refine ⟨?_, hr, ht⟩
            intro p hp
            simp only [partialTradeState, alSet, List.mem_cons] at hp
            rcases hp with rfl | hp
            · simp [partialTradeState]
            · rcases hp with rfl | hp
              · simp only [partialTradeState]
                omega
              · have := hc p hp
                simp only [partialTradeState]
                omega
  | retireCarbonCredit sender cid =>
      cases h : retireCarbonCredit s sender cid with
      | error e => simpa only [applyOp, h] using ⟨hc, hr, ht⟩
      | ok s2 =>
          obtain ⟨hcid, hret, hown, rfl⟩ := retire_ok_iff.mp h
          simp only [applyOp, h]
          refine ⟨?_, hr, ht⟩
          intro p hp
          simp only [retiredState, alSet, List.mem_cons] at hp
          rcases hp with rfl | hp
          · simpa [retiredState] using hcid
          · simpa [retiredState] using hc p hp
  | addVerifier sender v =>
      cases h : addVerifier s sender v with
      | error e => simpa only [applyOp, h] using ⟨hc, hr, ht⟩
      | ok s2 =>
          obtain ⟨hsend, rfl⟩ := addVerifier_ok_iff.mp h
          simpa only [applyOp, h] using ⟨hc, hr, ht⟩
  | removeVerifier sender v =>
      cases h : removeVerifier s sender v with
      | error e => simpa only [applyOp, h] using ⟨hc, hr, ht⟩
      | ok s2 =>
          obtain ⟨hsend, rfl⟩ := removeVerifier_ok_iff.mp h
          simpa only [applyOp, h] using ⟨hc, hr, ht⟩

theorem KeysWF_runOps (s : ContractState) (ops : List Op) (hwf : KeysWF s) :
    KeysWF (runOps s ops) := by
  induction ops generalizing s with
  | nil => exact hwf
  | cons op rest ihr => exact ihr (applyOp s op) (KeysWF_applyOp s op hwf)

/-! ## Pointwise reading of the successful-case states -/

theorem getCredit_mintedState_ne {s : ContractState} {sender am ppt : Nat}
    {ch pd : String} {v : Nat} {ct : CreditType} {j : Nat}
    (h : j ≠ s.carbonCreditIds + 1) :
    getCredit (mintedState s sender am ppt ch pd v ct) j = getCredit s j := by
  simp only [mintedState, getCredit]
  exact alGet_alSet_ne _ _ _ _ _ h

theorem getCredit_fullTradeState_self {s : ContractState} {sender cid : Nat} :
    getCredit (fullTradeState s sender cid) cid = { getCredit s cid with owner := sender } := by
  simp only [fullTradeState, getCredit]
  exact alGet_alSet_self _ _ _ _

theorem getCredit_fullTradeState_ne {s : ContractState} {sender cid j : Nat}
    (h : j ≠ cid) :
    getCredit (fullTradeState s sender cid) j = getCredit s j := by
  simp only [fullTradeState, getCredit]
  exact alGet_alSet_ne _ _ _ _ _ h

theorem getCredit_partialTradeState_new {s : ContractState} {sender cid am : Nat} :
    getCredit (partialTradeState s sender cid am) (s.carbonCreditIds + 1) =
      { id := s.carbonCreditIds + 1, owner := sender, amount := am,
        pricePerTon := (getCredit s cid).pricePerTon,
        certificationHash := (getCredit s cid).certificationHash,
        projectDetails := (getCredit s cid).projectDetails, retired := false,
        vintage := (getCredit s cid).vintage,
        creditType := (getCredit s cid).creditType } := by
  simp only [partialTradeState, getCredit]
  exact alGet_alSet_self _ _ _ _

theorem getCredit_partialTradeState_src {s : ContractState} {sender cid am : Nat}
    (h : cid ≠ s.carbonCreditIds + 1) :
    getCredit (partialTradeState s sender cid am) cid =
      { getCredit s cid with amount := (getCredit s cid).amount - am } := by
  simp only [partialTradeState, getCredit]
  rw [alGet_alSet_ne _ _ _ _ _ h]
  exact alGet_alSet_self _ _ _ _

theorem getCredit_partialTradeState_ne {s : ContractState} {sender cid am j : Nat}
    (h1 : j ≠ cid) (h2 : j ≠ s.carbonCreditIds + 1) :
    getCredit (partialTradeState s sender cid am) j = getCredit s j := by
  simp only [partialTradeState, getCredit]
  rw [alGet_alSet_ne _ _ _ _ _ h2]
  exact alGet_alSet_ne _ _ _ _ _ h1

theorem getCredit_retiredState_self {s : ContractState} {cid : Nat} :
    getCredit (retiredState s cid) cid = { getCredit s cid with retired := true } := by
  simp only [retiredState, getCredit]
  exact alGet_alSet_self _ _ _ _

theorem getCredit_retiredState_ne {s : ContractState} {cid j : Nat} (h : j ≠ cid) :
    getCredit (retiredState s cid) j = getCredit s j := by
  simp only [retiredState, getCredit]
  exact alGet_alSet_ne _ _ _ _ _ h

/-! ## Retirement is permanent -/

theorem retired_stays_applyOp {s : ContractState} (hwf : KeysWF s) {cid : Nat}
    (hret : (getCredit s cid).retired = true) (op : Op) :
    (getCredit (applyOp s op) cid).retired = true := by
  have hcid : cid ≤ s.carbonCreditIds := hwf.1 _ (getCredit_mem_of_retired hret)
  cases op with
  | reportEmissions sender ts fid ea pv es ih => exact hret
  | verifyEmissionReport sender rid sc pb =>
      cases h : verifyEmissionReport s sender rid sc pb with
      | error e => simpa only [applyOp, h] using hret
      | ok s2 =>
          obtain ⟨-, -, -, -, rfl⟩ := verify_ok_iff.mp h
          simpa only [applyOp, h] using hret
  | createDigitalTwin sender ts tid ft be dh =>
      cases h : createDigitalTwin s sender ts tid ft be dh with
      | error e => simpa only [applyOp, h] using hret
      | ok s2 =>
          obtain ⟨-, rfl⟩ := create_twin_ok_iff.mp h
          simpa only [applyOp, h] using hret
  | updateDigitalTwin sender ts tid ne =>
      cases h : updateDigitalTwin s sender ts tid ne with
      | error e => simpa only [applyOp, h] using hret
      | ok s2 =>
          obtain ⟨-, -, rfl⟩ := update_twin_ok_iff.mp h
          simpa only [applyOp, h] using hret
  | mintCarbonCredit sender ts am ppt ch pd v ct =>
      cases h : mintCarbonCredit s sender ts am ppt ch pd v ct with
      | error e => simpa only [applyOp, h] using hret
      | ok pr =>
          obtain ⟨s2, rid⟩ := pr
          obtain ⟨-, -, -, rfl, rfl⟩ := mint_ok_iff.mp h
          simp only [applyOp, h]
          rw [getCredit_mintedState_ne (by omega)]
          exact hret
  | tradeCarbonCredit sender mv cid2 am =>
      cases h : tradeCarbonCredit s sender mv cid2 am with
      | error e => simpa only [applyOp, h] using hret
      | ok pr =>
          obtain ⟨s2, tr⟩ := pr
          obtain ⟨hcid2, hret2, ham, -, -, -, hs2, -⟩ := trade_ok_iff.mp h
          have hne : cid ≠ cid2 := by
            intro he
            rw [he] at hret
            rw [hret] at hret2
            exact Bool.true_eq_false.mp hret2
          simp only [applyOp, h]
          subst hs2
          by_cases hfull : am = (getCredit s cid2).amount
          · rw [if_pos hfull, getCredit_fullTradeState_ne hne]
            exact hret
          · rw [if_neg hfull, getCredit_partialTradeState_ne hne (by omega)]
            exact hret
  | retireCarbonCredit sender cid2 =>
      cases h : retireCarbonCredit s sender cid2 with
      | error e => simpa only [applyOp, h] using hret
      | ok s2 =>
          obtain ⟨hcid2, hret2, -, rfl⟩ := retire_ok_iff.mp h
          simp only [applyOp, h]
          by_cases he : cid = cid2
          · subst he
            rw [getCredit_retiredState_self]
          · rw [getCredit_retiredState_ne he]
            exact hret
  | addVerifier sender v =>
      cases h : addVerifier s sender v with
      | error e => simpa only [applyOp, h] using hret
      | ok s2 =>
          obtain ⟨-, rfl⟩ := addVerifier_ok_iff.mp h
          simpa only [applyOp, h] using hret
  | removeVerifier sender v =>
      cases h : removeVerifier s sender v with
      | error e => simpa only [applyOp, h] using hret
      | ok s2 =>
          obtain ⟨-, rfl⟩ := removeVerifier_ok_iff.mp h
          simpa only [applyOp, h] using hret

theorem retired_stays_runOps {s : ContractState} (hwf : KeysWF s) {cid : Nat}
    (hret : (getCredit s cid).retired = true) (ops : List Op) :
    (getCredit (runOps s ops) cid).retired = true := by
  induction ops generalizing s with
  | nil => exact hret
  | cons op rest ihr =>
      exact ihr (KeysWF_applyOp s op hwf) (retired_stays_applyOp hwf hret op)

/-! ## Reading the ghost lineage map -/

theorem rootLookup_cons_self (m : List (Nat × Nat)) (c x : Nat) :
    rootLookup ((c, x) :: m) c = x := by
  simp [rootLookup, List.find?_cons_of_pos]

theorem rootLookup_cons_ne (m : List (Nat × Nat)) (c x j : Nat) (h : j ≠ c) :
    rootLookup ((c, x) :: m) j = rootLookup m j := by
  have hb : ((c, x).1 == j) = false := by
    simp only [beq_eq_false_iff_ne]
    exact fun he => h he.symm
  simp [rootLookup, List.find?_cons_of_neg, hb]

theorem rootLookup_fresh (m : List (Nat × Nat)) (j : Nat)
    (h : ∀ p ∈ m, p.1 ≠ j) : rootLookup m j = j := by
  have hnone : m.find? (fun p => p.1 == j) = none := by
    apply List.find?_eq_none.mpr
    intro p hp
    simp [h p hp]
  simp [rootLookup, hnone]

theorem rootLookup_le (m : List (Nat × Nat)) (j : Nat)
    (h : ∀ p ∈ m, p.2 < p.1) : rootLookup m j ≤ j := by
  cases hf : m.find? (fun p => p.1 == j) with
  | none => simp [rootLookup, hf]
  | some p =>
      have hp := List.mem_of_find?_eq_some hf
      have hlt := h p hp
      have hk := List.find?_some hf
      have hk2 : p.1 = j := by simpa using hk
      simp only [rootLookup, hf]
      omega

/-! ## Presence predicates versus mapping reads -/

theorem twinStored_mem {s : ContractState} {tid : String}
    (h : twinStored s tid = true) : (tid, getTwin s tid) ∈ s.digitalTwins := by
  unfold twinStored at h
  cases hf : s.digitalTwins.find? (fun p => p.1 == tid) with
  | none => rw [hf] at h; simp at h
  | some p =>
      have hp := List.mem_of_find?_eq_some hf
      have hk := List.find?_some hf
      have hk2 : p.1 = tid := by simpa using hk
      have hget : getTwin s tid = p.2 := by simp [getTwin, alGet, hf]
      rw [hget, ← hk2]
      exact hp

theorem twinStored_false_default {s : ContractState} {tid : String}
    (h : twinStored s tid = false) : getTwin s tid = defaultTwin := by
  unfold twinStored at h
  cases hf : s.digitalTwins.find? (fun p => p.1 == tid) with
  | none => simp [getTwin, alGet, hf]
  | some p => rw [hf] at h; simp at h

theorem existsCredit_mem {s : ContractState} {j : Nat}
    (h : existsCredit s j = true) : (j, getCredit s j) ∈ s.carbonCredits := by
  unfold existsCredit at h
  cases hf : s.carbonCredits.find? (fun p => p.1 == j) with
  | none => rw [hf] at h; simp at h
  | some p =>
      have hp := List.mem_of_find?_eq_some hf
      have hk := List.find?_some hf
      have hk2 : p.1 = j := by simpa using hk
      have hget : getCredit s j = p.2 := by simp [getCredit, alGet, hf]
      rw [hget, ← hk2]
      exact hp

/-! ## Failure paths of the credit operations -/

theorem trade_retired_error {s : ContractState} {sender mv cid am : Nat}
    (hcid : cid ≤ s.carbonCreditIds) (hret : (getCredit s cid).retired = true) :
    tradeCarbonCredit s sender mv cid am = .error .alreadyRetired := by
  unfold tradeCarbonCredit
  rw [if_neg (by omega), if_pos hret]

theorem retire_retired_error {s : ContractState} {sender cid : Nat}
    (hcid : cid ≤ s.carbonCreditIds) (hret : (getCredit s cid).retired = true) :
    retireCarbonCredit s sender cid = .error .alreadyRetired := by
  unfold retireCarbonCredit
  rw [if_neg (by omega), if_pos hret]

/-! ## Reading the verified state -/

theorem getReport_verifiedState_self {s : ContractState} {sender rid sc : Nat}
    {pb : Bool} :
    getReport (verifiedState s sender rid sc pb) rid =
      { getReport s rid with
          verified := true
          verificationScore := sc
          verifier := sender } := by
  simp only [verifiedState, getReport]
  exact alGet_alSet_self _ _ _ _

theorem scoreOf_verifiedState_company {s : ContractState} {sender rid sc : Nat}
    {pb : Bool} :
    scoreOf (verifiedState s sender rid sc pb) (getReport s rid).company =
      (if pb then (scoreOf s (getReport s rid).company + sc) / 2
       else scoreOf s (getReport s rid).company / 2) := by
  simp only [verifiedState, scoreOf]
  exact alGet_alSet_self _ _ _ _

/-! ## Positivity of stored amounts under positive trades -/

theorem PosInv_applyOp (s : ContractState) (op : Op) (hpos : PosInv s)
    (hop : ∀ sender mv cid a, op = .tradeCarbonCredit sender mv cid a → 0 < a) :
    PosInv (applyOp s op) := by
  cases op with
  | reportEmissions sender ts fid ea pv es ih => exact hpos
  | verifyEmissionReport sender rid sc pb =>
      cases h : verifyEmissionReport s sender rid sc pb with
      | error e => simpa only [applyOp, h] using hpos
      | ok s2 =>
          obtain ⟨-, -, -, -, rfl⟩ := verify_ok_iff.mp h
          simpa only [applyOp, h] using hpos
  | createDigitalTwin sender ts tid ft be dh =>
      cases h : createDigitalTwin s sender ts tid ft be dh with
      | error e => simpa only [applyOp, h] using hpos
      | ok s2 =>
          obtain ⟨-, rfl⟩ := create_twin_ok_iff.mp h
          simpa only [applyOp, h] using hpos
  | updateDigitalTwin sender ts tid ne =>
      cases h : updateDigitalTwin s sender ts tid ne with
      | error e => simpa only [applyOp, h] using hpos
      | ok s2 =>
          obtain ⟨-, -, rfl⟩ := update_twin_ok_iff.mp h
          simpa only [applyOp, h] using hpos
  | mintCarbonCredit sender ts am ppt ch pd v ct =>
      cases h : mintCarbonCredit s sender ts am ppt ch pd v ct with
      | error e => simpa only [applyOp, h] using hpos
      | ok pr =>
          obtain ⟨s2, rid⟩ := pr
          obtain ⟨ham, -, -, rfl, rfl⟩ := mint_ok_iff.mp h
          simp only [applyOp, h]
          intro p hp
          simp only [mintedState, alSet, List.mem_cons] at hp
          rcases hp with rfl | hp
          · left
            simpa using Nat.pos_of_ne_zero ham
          · exact hpos p hp
  | tradeCarbonCredit sender mv cid am =>
      have hA : 0 < am := hop sender mv cid am rfl
      cases h : tradeCarbonCredit s sender mv cid am with
      | error e => simpa only [applyOp, h] using hpos
      | ok pr =>
          obtain ⟨s2, tr⟩ := pr
          obtain ⟨hcid, hret, ham, -, -, -, hs2, -⟩ := trade_ok_iff.mp h
          simp only [applyOp, h]
          subst hs2
          by_cases hfull : am = (getCredit s cid).amount
          · rw [if_pos hfull]
            intro p hp
            simp only [fullTradeState, alSet, List.mem_cons] at hp
            rcases hp with rfl | hp
            · left
              simp only []
              omega
            · exact hpos p hp
          · rw [if_neg hfull]
            intro p hp
            simp only [partialTradeState, alSet, List.mem_cons] at hp
            rcases hp with rfl | hp
            · left
              simpa using hA
            · rcases hp with rfl | hp
              · left
                simp only []
                omega
              · exact hpos p hp
  | retireCarbonCredit sender cid =>
      cases h : retireCarbonCredit s sender cid with
      | error e => simpa only [applyOp, h] using hpos
      | ok s2 =>
          obtain ⟨hcid, hret, hown, rfl⟩ := retire_ok_iff.mp h
          simp only [applyOp, h]
          intro p hp
          simp only [retiredState, alSet, List.mem_cons] at hp
          rcases hp with rfl | hp
          · right
            rfl
          · exact hpos p hp
  | addVerifier sender v =>
      cases h : addVerifier s sender v with
      | error e => simpa only [applyOp, h] using hpos
      | ok s2 =>
          obtain ⟨-, rfl⟩ := addVerifier_ok_iff.mp h
          simpa only [applyOp, h] using hpos
  | removeVerifier sender v =>
      cases h : removeVerifier s sender v with
      | error e => simpa only [applyOp, h] using hpos
      | ok s2 =>
          obtain ⟨-, rfl⟩ := removeVerifier_ok_iff.mp h
          simpa only [applyOp, h] using hpos

theorem PosInv_runOps (s : ContractState) (ops : List Op) (hpos : PosInv s)
    (h : tradeAmountsPos ops = true) : PosInv (runOps s ops) := by
  induction ops generalizing s with
  | nil => exact hpos
  | cons op rest ihr =>
      simp only [tradeAmountsPos, List.all_cons, Bool.and_eq_true] at h
      refine ihr (applyOp s op) (PosInv_applyOp s op hpos ?_) h.2
      intro sender mv cid a he
      subst he
      simpa using h.1

/-! ## Ghost state versus contract state -/

theorem gApplyOp_cs (g : GState) (op : Op) : (gApplyOp g op).cs = applyOp g.cs op := by
  cases op with
  | tradeCarbonCredit sender mv cid am =>
      simp only [gApplyOp, applyOp]
      cases h : tradeCarbonCredit g.cs sender mv cid am with
      | error e => rfl
      | ok pr =>
          obtain ⟨s2, tr⟩ := pr
          show (if am = (getCredit g.cs cid).amount
                then ({ cs := s2, rootMap := g.rootMap } : GState)
                else { cs := s2,
                       rootMap := (g.cs.carbonCreditIds + 1,
                         rootLookup g.rootMap cid) :: g.rootMap }).cs = s2
          by_cases hfull : am = (getCredit g.cs cid).amount
          · rw [if_pos hfull]
          · rw [if_neg hfull]
  | reportEmissions sender ts fid ea pv es ih => rfl
  | verifyEmissionReport sender rid sc pb => rfl
  | createDigitalTwin sender ts tid ft be dh => rfl
  | updateDigitalTwin sender ts tid ne => rfl
  | mintCarbonCredit sender ts am ppt ch pd v ct => rfl
  | retireCarbonCredit sender cid => rfl
  | addVerifier sender v => rfl
  | removeVerifier sender v => rfl

theorem carbonCreditIds_applyOp_mono (s : ContractState) (op : Op) :
    s.carbonCreditIds ≤ (applyOp s op).carbonCreditIds := by
  cases op with
  | reportEmissions sender ts fid ea pv es ih => exact Nat.le_refl _
  | verifyEmissionReport sender rid sc pb =>
      cases h : verifyEmissionReport s sender rid sc pb with
      | error e => simp [applyOp, h]
      | ok s2 =>
          obtain ⟨-, -, -, -, rfl⟩ := verify_ok_iff.mp h
          simp [applyOp, h, verifiedState]
  | createDigitalTwin sender ts tid ft be dh =>
      cases h : createDigitalTwin s sender ts tid ft be dh with
      | error e => simp [applyOp, h]
      | ok s2 =>
          obtain ⟨-, rfl⟩ := create_twin_ok_iff.mp h
          simp [applyOp, h, twinCreatedState]
  | updateDigitalTwin sender ts tid ne =>
      cases h : updateDigitalTwin s sender ts tid ne with
      | error e => simp [applyOp, h]
      | ok s2 =>
          obtain ⟨-, -, rfl⟩ := update_twin_ok_iff.mp h
          simp [applyOp, h, twinUpdatedState]
  | mintCarbonCredit sender ts am ppt ch pd v ct =>
      cases h : mintCarbonCredit s sender ts am ppt ch pd v ct with
      | error e => simp [applyOp, h]
      | ok pr =>
          obtain ⟨s2, rid⟩ := pr
          obtain ⟨-, -, -, rfl, rfl⟩ := mint_ok_iff.mp h
          simp only [applyOp, h, mintedState]
          omega
  | tradeCarbonCredit sender mv cid am =>
      cases h : tradeCarbonCredit s sender mv cid am with
      | error e => simp [applyOp, h]
      | ok pr =>
          obtain ⟨s2, tr⟩ := pr
          obtain ⟨-, -, -, -, -, -, hs2, -⟩ := trade_ok_iff.mp h
          subst hs2
          by_cases hfull : am = (getCredit s cid).amount
          · simp [applyOp, h, if_pos hfull, fullTradeState]
          · simp only [applyOp, h, if_neg hfull, partialTradeState]
            omega
  | retireCarbonCredit sender cid =>
      cases h : retireCarbonCredit s sender cid with
      | error e => simp [applyOp, h]
      | ok s2 =>
          obtain ⟨-, -, -, rfl⟩ := retire_ok_iff.mp h
          simp [applyOp, h, retiredState]
  | addVerifier sender v =>
      cases h : addVerifier s sender v with
      | error e => simp [applyOp, h]
      | ok s2 =>
          obtain ⟨-, rfl⟩ := addVerifier_ok_iff.mp h
          simp [applyOp, h]
  | removeVerifier sender v =>
      cases h : removeVerifier s sender v with
      | error e => simp [applyOp, h]
      | ok s2 =>
          obtain ⟨-, rfl⟩ := removeVerifier_ok_iff.mp h
          simp [applyOp, h]

theorem carbonCreditIds_gApplyOp_mono (g : GState) (op : Op) :
    g.cs.carbonCreditIds ≤ (gApplyOp g op).cs.carbonCreditIds := by
  rw [gApplyOp_cs]
  exact carbonCreditIds_applyOp_mono g.cs op

theorem GWF_gApplyOp (g : GState) (op : Op) (hg : GWF g) : GWF (gApplyOp g op) := by
  cases op with
  | tradeCarbonCredit sender mv cid am =>
      cases h : tradeCarbonCredit g.cs sender mv cid am with
      | error e => simpa only [gApplyOp, h] using hg
      | ok pr =>
          obtain ⟨s2, tr⟩ := pr
          obtain ⟨hcid, -, -, -, -, -, hs2, -⟩ := trade_ok_iff.mp h
          by_cases hfull : am = (getCredit g.cs cid).amount
          · simp only [gApplyOp, h, if_pos hfull]
            intro p hp
            have h1 := hg p hp
            refine ⟨h1.1, ?_⟩
            rw [hs2, if_pos hfull]
            simpa [fullTradeState] using h1.2
          · simp only [gApplyOp, h, if_neg hfull]
            intro p hp
            simp only [List.mem_cons] at hp
            rcases hp with rfl | hp
            · refine ⟨?_, ?_⟩
              · show rootLookup g.rootMap cid < g.cs.carbonCreditIds + 1
                have hle := rootLookup_le g.rootMap cid (fun q hq => (hg q hq).1)
                omega
              · show g.cs.carbonCreditIds + 1 ≤ _
                rw [hs2, if_neg hfull]
                simp [partialTradeState]
            · have h1 := hg p hp
              refine ⟨h1.1, ?_⟩
              rw [hs2, if_neg hfull]
              simp only [partialTradeState]
              omega
  | reportEmissions sender ts fid ea pv es ih =>
      intro p hp
      have h1 := hg p hp
      exact ⟨h1.1, h1.2.trans (carbonCreditIds_applyOp_mono g.cs
        (Op.reportEmissions sender ts fid ea pv es ih))⟩
  | verifyEmissionReport sender rid sc pb =>
      intro p hp
      have h1 := hg p hp
      exact ⟨h1.1, h1.2.trans (carbonCreditIds_applyOp_mono g.cs
        (Op.verifyEmissionReport sender rid sc pb))⟩
  | createDigitalTwin sender ts tid ft be dh =>
      intro p hp
      have h1 := hg p hp
      exact ⟨h1.1, h1.2.trans (carbonCreditIds_applyOp_mono g.cs
        (Op.createDigitalTwin sender ts tid ft be dh))⟩
  | updateDigitalTwin sender ts tid ne =>
      intro p hp
      have h1 := hg p hp
      exact ⟨h1.1, h1.2.trans (carbonCreditIds_applyOp_mono g.cs
        (Op.updateDigitalTwin sender ts tid ne))⟩
  | mintCarbonCredit sender ts am ppt ch pd v ct =>
      intro p hp
      have h1 := hg p hp
      exact ⟨h1.1, h1.2.trans (carbonCreditIds_applyOp_mono g.cs
        (Op.mintCarbonCredit sender ts am ppt ch pd v ct))⟩
  | retireCarbonCredit sender cid =>
      intro p hp
      have h1 := hg p hp
      exact ⟨h1.1, h1.2.trans (carbonCreditIds_applyOp_mono g.cs
        (Op.retireCarbonCredit sender cid))⟩
  | addVerifier sender v =>
      intro p hp
      have h1 := hg p hp
      exact ⟨h1.1, h1.2.trans (carbonCreditIds_applyOp_mono g.cs (Op.addVerifier sender v))⟩
  | removeVerifier sender v =>
      intro p hp
      have h1 := hg p hp
      exact ⟨h1.1, h1.2.trans (carbonCreditIds_applyOp_mono g.cs (Op.removeVerifier sender v))⟩

theorem GWF_gRunOps (g : GState) (ops : List Op) (hg : GWF g) : GWF (gRunOps g ops) := by
  induction ops generalizing g with
  | nil => exact hg
  | cons op rest ihr => exact ihr (gApplyOp g op) (GWF_gApplyOp g op hg)

/-! ## Counter values of the successful-case states -/

theorem mintedState_carbonCreditIds {s : ContractState} {sender am ppt : Nat}
    {ch pd : String} {v : Nat} {ct : CreditType} :
    (mintedState s sender am ppt ch pd v ct).carbonCreditIds = s.carbonCreditIds + 1 := rfl

theorem fullTradeState_carbonCreditIds {s : ContractState} {sender cid : Nat} :
    (fullTradeState s sender cid).carbonCreditIds = s.carbonCreditIds := rfl

theorem partialTradeState_carbonCreditIds {s : ContractState} {sender cid am : Nat} :
    (partialTradeState s sender cid am).carbonCreditIds = s.carbonCreditIds + 1 := rfl

theorem retiredState_carbonCreditIds {s : ContractState} {cid : Nat} :
    (retiredState s cid).carbonCreditIds = s.carbonCreditIds := rfl

theorem getCredit_mintedState_self {s : ContractState} {sender am ppt : Nat}
    {ch pd : String} {v : Nat} {ct : CreditType} :
    getCredit (mintedState s sender am ppt ch pd v ct) (s.carbonCreditIds + 1) =
      { id := s.carbonCreditIds + 1, owner := sender, amount := am,
        pricePerTon := ppt, certificationHash := ch, projectDetails := pd,
        retired := false, vintage := v, creditType := ct } := by
  simp only [mintedState, getCredit]
  exact alGet_alSet_self _ _ _ _

/-! ## Conservation of family sums -/

theorem familySum_after_mint (g : GState) (hg : GWF g) (sender am ppt : Nat)
    (ch pd : String) (v : Nat) (ct : CreditType) :
    familySum { cs := mintedState g.cs sender am ppt ch pd v ct, rootMap := g.rootMap }
      (g.cs.carbonCreditIds + 1) = am := by
  unfold familySum
  simp only [mintedState_carbonCreditIds]
  rw [Finset.sum_range_succ]
  have hfresh : rootLookup g.rootMap (g.cs.carbonCreditIds + 1) = g.cs.carbonCreditIds + 1 :=
    rootLookup_fresh _ _ (fun p hp => by have := hg p hp; omega)
  have hz : ∀ j ∈ Finset.range (g.cs.carbonCreditIds + 1),
      (if rootLookup g.rootMap j = g.cs.carbonCreditIds + 1
       then (getCredit (mintedState g.cs sender am ppt ch pd v ct) j).amount else 0) = 0 := by
    intro j hj
    have hjn : j < g.cs.carbonCreditIds + 1 := Finset.mem_range.mp hj
    have hle := rootLookup_le g.rootMap j (fun q hq => (hg q hq).1)
    rw [if_neg (by omega)]
  rw [Finset.sum_eq_zero hz, if_pos hfresh, getCredit_mintedState_self, zero_add]

theorem familySum_gApplyOp (g : GState) (hg : GWF g) (r : Nat)
    (hr : r ≤ g.cs.carbonCreditIds) (op : Op) :
    familySum (gApplyOp g op) r = familySum g r := by
  cases op with
  | reportEmissions sender ts fid ea pv es ih => rfl
  | verifyEmissionReport sender rid sc pb =>
      cases h : verifyEmissionReport g.cs sender rid sc pb with
      | error e => simp [gApplyOp, applyOp, h]
      | ok s2 =>
          obtain ⟨-, -, -, -, rfl⟩ := verify_ok_iff.mp h
          simp only [gApplyOp, applyOp, h]
          rfl
  | createDigitalTwin sender ts tid ft be dh =>
      cases h : createDigitalTwin g.cs sender ts tid ft be dh with
      | error e => simp [gApplyOp, applyOp, h]
      | ok s2 =>
          obtain ⟨-, rfl⟩ := create_twin_ok_iff.mp h
          simp only [gApplyOp, applyOp, h]
          rfl
  | updateDigitalTwin sender ts tid ne =>
      cases h : updateDigitalTwin g.cs sender ts tid ne with
      | error e => simp [gApplyOp, applyOp, h]
      | ok s2 =>
          obtain ⟨-, -, rfl⟩ := update_twin_ok_iff.mp h
          simp only [gApplyOp, applyOp, h]
          rfl
  | addVerifier sender v =>
      cases h : addVerifier g.cs sender v with
      | error e => simp [gApplyOp, applyOp, h]
      | ok s2 =>
          obtain ⟨-, rfl⟩ := addVerifier_ok_iff.mp h
          simp only [gApplyOp, applyOp, h]
          rfl
  | removeVerifier sender v =>
      cases h : removeVerifier g.cs sender v with
      | error e => simp [gApplyOp, applyOp, h]
      | ok s2 =>
          obtain ⟨-, rfl⟩ := removeVerifier_ok_iff.mp h
          simp only [gApplyOp, applyOp, h]
          rfl
  | mintCarbonCredit sender ts am ppt ch pd v ct =>
      cases h : mintCarbonCredit g.cs sender ts am ppt ch pd v ct with
      | error e => simp [gApplyOp, applyOp, h]
      | ok pr =>
          obtain ⟨s2, rid⟩ := pr
          obtain ⟨-, -, -, rfl, rfl⟩ := mint_ok_iff.mp h
          simp only [gApplyOp, applyOp, h]
          unfold familySum
          simp only [mintedState_carbonCreditIds]
          rw [Finset.sum_range_succ]
          have hfresh : rootLookup g.rootMap (g.cs.carbonCreditIds + 1) =
              g.cs.carbonCreditIds + 1 :=
            rootLookup_fresh _ _ (fun p hp => by have := hg p hp; omega)
          rw [if_neg (by omega), add_zero]
          apply Finset.sum_congr rfl
          intro j hj
          have hjn : j < g.cs.carbonCreditIds + 1 := Finset.mem_range.mp hj
          rw [getCredit_mintedState_ne (by omega)]
  | retireCarbonCredit sender cid =>
      cases h : retireCarbonCredit g.cs sender cid with
      | error e => simp [gApplyOp, applyOp, h]
      | ok s2 =>
          obtain ⟨hcid, hret, hown, rfl⟩ := retire_ok_iff.mp h
          simp only [gApplyOp, applyOp, h]
          unfold familySum
          simp only [retiredState_carbonCreditIds]
          apply Finset.sum_congr rfl
          intro j hj
          by_cases hjc : j = cid
          · subst hjc
            rw [getCredit_retiredState_self]
          · rw [getCredit_retiredState_ne hjc]
  | tradeCarbonCredit sender mv cid am =>
      cases h : tradeCarbonCredit g.cs sender mv cid am with
      | error e => simp [gApplyOp, h]
      | ok pr =>
          obtain ⟨s2, tr⟩ := pr
          obtain ⟨hcid, hret, ham, -, -, -, hs2, -⟩ := trade_ok_iff.mp h
          by_cases hfull : am = (getCredit g.cs cid).amount
          · simp only [gApplyOp, h, if_pos hfull]
            rw [hs2, if_pos hfull]
            unfold familySum
            simp only [fullTradeState_carbonCreditIds]
            apply Finset.sum_congr rfl
            intro j hj
            by_cases hjc : j = cid
            · subst hjc
              rw [getCredit_fullTradeState_self]
            · rw [getCredit_fullTradeState_ne hjc]
          · simp only [gApplyOp, h, if_neg hfull]
            rw [hs2, if_neg hfull]
            unfold familySum
            simp only [partialTradeState_carbonCreditIds]
            rw [Finset.sum_range_succ]
            have hcidmem : cid ∈ Finset.range (g.cs.carbonCreditIds + 1) :=
              Finset.mem_range.mpr (by omega)
            rw [← Finset.add_sum_erase _ _ hcidmem]
            conv_rhs => rw [← Finset.add_sum_erase _ _ hcidmem]
            have herase :
                (Finset.sum ((Finset.range (g.cs.carbonCreditIds + 1)).erase cid)
                  (fun j => if rootLookup ((g.cs.carbonCreditIds + 1,
                      rootLookup g.rootMap cid) :: g.rootMap) j = r
                    then (getCredit (partialTradeState g.cs sender cid am) j).amount else 0)) =
                (Finset.sum ((Finset.range (g.cs.carbonCreditIds + 1)).erase cid)
                  (fun j => if rootLookup g.rootMap j = r
                    then (getCredit g.cs j).amount else 0)) := by
              apply Finset.sum_congr rfl
              intro j hj
              have hjc : j ≠ cid := Finset.ne_of_mem_erase hj
              have hjn : j < g.cs.carbonCreditIds + 1 :=
                Finset.mem_range.mp (Finset.mem_of_mem_erase hj)
              rw [rootLookup_cons_ne _ _ _ _ (by omega),
                getCredit_partialTradeState_ne hjc (by omega)]
            rw [herase]
            rw [rootLookup_cons_ne _ _ _ _ (by omega : cid ≠ g.cs.carbonCreditIds + 1)]
            rw [getCredit_partialTradeState_src (by omega)]
            rw [rootLookup_cons_self]
            rw [getCredit_partialTradeState_new]
            by_cases hroot : rootLookup g.rootMap cid = r
            · rw [if_pos hroot, if_pos hroot, if_pos hroot]
              simp only []
              omega
            · rw [if_neg hroot, if_neg hroot, if_neg hroot]
              omega

theorem familySum_gRunOps (g : GState) (hg : GWF g) (r : Nat)
    (hr : r ≤ g.cs.carbonCreditIds) (ops : List Op) :
    familySum (gRunOps g ops) r = familySum g r := by
  induction ops generalizing g with
  | nil => rfl
  | cons op rest ihr =>
      have hstep := familySum_gApplyOp g hg r hr op
      have hmono := carbonCreditIds_gApplyOp_mono g op
      show familySum (gRunOps (gApplyOp g op) rest) r = familySum g r
      rw [ihr (gApplyOp g op) (GWF_gApplyOp g op hg) (hr.trans hmono), hstep]

/-! ## The claims -/

/-- C1: for every credit lot created by `mintCarbonCredit` with amount `am`,
after any sequence of `tradeCarbonCredit` calls (full-ownership trades and
partial splits) and before any retirement, the sum of the amounts of that
lot and of every lot produced by splitting it, transitively, equals `am`. -/
theorem C1_conservation (d : Nat) (pre : List Op) (sender ts am ppt : Nat)
    (ch pd : String) (v : Nat) (ct : CreditType) (post : List Op)
    (hpost : ∀ op ∈ post, isTradeOp op = true)
    (s2 : ContractState) (rid : Nat)
    (hmint : mintCarbonCredit (gRunOps (gInit d) pre).cs sender ts am ppt ch pd v ct
      = .ok (s2, rid)) :
    familySum (gRunOps (gApplyOp (gRunOps (gInit d) pre)
      (Op.mintCarbonCredit sender ts am ppt ch pd v ct)) post) rid = am := by
  have hg1 : GWF (gRunOps (gInit d) pre) :=
    GWF_gRunOps _ _ (by intro p hp; simp [gInit] at hp)
  obtain ⟨ham, hv1, hv2, hs2, hrid⟩ := mint_ok_iff.mp hmint
  have hga : gApplyOp (gRunOps (gInit d) pre)
      (Op.mintCarbonCredit sender ts am ppt ch pd v ct)
      = { cs := mintedState (gRunOps (gInit d) pre).cs sender am ppt ch pd v ct,
          rootMap := (gRunOps (gInit d) pre).rootMap } := by
    simp only [gApplyOp, applyOp, hmint]
    rw [hs2]
  rw [hga]
  subst hrid
  have hg2 : GWF
      { cs := mintedState (gRunOps (gInit d) pre).cs sender am ppt ch pd v ct,
        rootMap := (gRunOps (gInit d) pre).rootMap } := by
    intro p hp
    have h1 := hg1 p hp
    refine ⟨h1.1, ?_⟩
    show p.1 ≤ (mintedState (gRunOps (gInit d) pre).cs sender am ppt ch pd v ct).carbonCreditIds
    rw [mintedState_carbonCreditIds]
    omega
  rw [familySum_gRunOps _ hg2 _ (by
    show (gRunOps (gInit d) pre).cs.carbonCreditIds + 1 ≤
      (mintedState (gRunOps (gInit d) pre).cs sender am ppt ch pd v ct).carbonCreditIds
    rw [mintedState_carbonCreditIds]) post]
  exact familySum_after_mint (gRunOps (gInit d) pre) hg1 sender am ppt ch pd v ct

/-- Witness for C1: deploying as 1, minting 100 tons and then trading 40 of
them to buyer 2 leaves a family sum of 100 (lot 1 keeps 60, lot 2 holds 40). -/
theorem C1_conservation_witness :
    (∀ op ∈ [Op.tradeCarbonCredit 2 405 1 40], isTradeOp op = true) ∧
    mintCarbonCredit (gRunOps (gInit 1) []).cs 1 1600000000 100 10 "cert" "proj" 2020
      .RENEWABLE_ENERGY = .ok (wMintState, 1) ∧
    familySum (gRunOps (gApplyOp (gRunOps (gInit 1) [])
      (Op.mintCarbonCredit 1 1600000000 100 10 "cert" "proj" 2020 .RENEWABLE_ENERGY))
      [Op.tradeCarbonCredit 2 405 1 40]) 1 = 100 :=
  ⟨by decide, by decide,
   C1_conservation 1 [] 1 1600000000 100 10 "cert" "proj" 2020 .RENEWABLE_ENERGY
     [Op.tradeCarbonCredit 2 405 1 40] (by decide) wMintState 1 (by decide)⟩

/-- C2: a successful trade of amount `am` on a lot priced `p` per ton with
attached payment `mv` pays exactly `p * am` to the previous owner and refunds
exactly `mv - p * am` to the caller. -/
theorem C2_payment_exactness (s : ContractState) (sender mv cid am : Nat)
    (s2 : ContractState) (tr : List (Nat × Nat))
    (h : tradeCarbonCredit s sender mv cid am = .ok (s2, tr)) :
    paidTo tr (getCredit s cid).owner = (getCredit s cid).pricePerTon * am ∧
    paidTo tr sender = mv - (getCredit s cid).pricePerTon * am := by
  obtain ⟨-, -, -, -, hpay, hown, -, htr⟩ := trade_ok_iff.mp h
  subst htr
  unfold tradeTransfers paidTo
  by_cases hlt : (getCredit s cid).pricePerTon * am < mv
  · rw [if_pos hlt]
    constructor
    · simp [Ne.symm hown]
    · simp [hown]
  · rw [if_neg hlt]
    constructor
    · simp
    · simp [hown]
      omega

/-- Witness for C2: trading 40 tons at 10 wei per ton with payment 405 pays
400 to the seller (owner 1) and refunds 5 to buyer 2. -/
theorem C2_payment_exactness_witness :
    tradeCarbonCredit wMintState 2 405 1 40 = .ok (wTradedState, [(1, 400), (2, 5)]) ∧
    (paidTo [(1, 400), (2, 5)] (getCredit wMintState 1).owner =
        (getCredit wMintState 1).pricePerTon * 40 ∧
      paidTo [(1, 400), (2, 5)] 2 = 405 - (getCredit wMintState 1).pricePerTon * 40) :=
  ⟨by decide,
   C2_payment_exactness wMintState 2 405 1 40 wTradedState [(1, 400), (2, 5)] (by decide)⟩

/-- C3 counterexample: the claim fails on the code: a `tradeCarbonCredit`
call with amount 0 takes the partial-split branch and stores a fresh
non-retired lot whose amount is 0 (lot 2 of `wZeroTradeState`). -/
theorem C3_counterexample :
    existsCredit wZeroTradeState 2 = true ∧
    (getCredit wZeroTradeState 2).retired = false ∧
    (getCredit wZeroTradeState 2).amount = 0 := by decide

/-- C3 amended: in every state reachable by a sequence of calls in which
every `tradeCarbonCredit` trades a positive amount, every existing credit
lot with `retired = false` has amount > 0. -/
theorem C3_nonretired_amount_pos (d : Nat) (ops : List Op)
    (hpos : tradeAmountsPos ops = true) (j : Nat)
    (hex : existsCredit (runOps (initState d) ops) j = true)
    (hnr : (getCredit (runOps (initState d) ops) j).retired = false) :
    0 < (getCredit (runOps (initState d) ops) j).amount := by
  have hinv : PosInv (runOps (initState d) ops) :=
    PosInv_runOps _ _ (by intro p hp; simp [initState] at hp) hpos
  rcases hinv _ (existsCredit_mem hex) with h | h
  · exact h
  · rw [hnr] at h
    cases h

/-- Witness for C3's amended claim, on the mint-then-trade-40 trace: lot 1
exists, is not retired, and has positive amount (60). -/
theorem C3_nonretired_amount_pos_witness :
    (tradeAmountsPos wTradeTrace = true ∧
      existsCredit (runOps (initState 1) wTradeTrace) 1 = true ∧
      (getCredit (runOps (initState 1) wTradeTrace) 1).retired = false) ∧
    0 < (getCredit (runOps (initState 1) wTradeTrace) 1).amount :=
  ⟨⟨by decide, by decide, by decide⟩,
   C3_nonretired_amount_pos 1 wTradeTrace (by decide) 1 (by decide) (by decide)⟩

/-- C4: after a successful `verifyEmissionReport`, any second call on the
same report id by any authorized verifier with any score at most 100 fails
with the already-verified error, changes nothing, and the score and
verifier recorded by the first call remain in place. -/
theorem C4_verify_exactly_once (s : ContractState) (v1 rid sc1 : Nat) (p1 : Bool)
    (s1 : ContractState) (h1 : verifyEmissionReport s v1 rid sc1 p1 = .ok s1)
    (v2 sc2 : Nat) (p2 : Bool) (hv2 : isVerifier s1 v2 = true) (hsc2 : sc2 ≤ 100) :
    verifyEmissionReport s1 v2 rid sc2 p2 = .error .alreadyVerified ∧
    applyOp s1 (Op.verifyEmissionReport v2 rid sc2 p2) = s1 ∧
    (getReport s1 rid).verificationScore = sc1 ∧
    (getReport s1 rid).verifier = v1 := by
  obtain ⟨hv1, hrid, hsc1, hnv, rfl⟩ := verify_ok_iff.mp h1
  have hcounter : (verifiedState s v1 rid sc1 p1).emissionReportIds =
      s.emissionReportIds := rfl
  have hrep := @getReport_verifiedState_self s v1 rid sc1 p1
  have herr : verifyEmissionReport (verifiedState s v1 rid sc1 p1) v2 rid sc2 p2 =
      .error .alreadyVerified := by
    unfold verifyEmissionReport
    rw [if_neg (by simp [hv2]), if_neg (by rw [hcounter]; omega),
      if_neg (by omega), if_pos (by rw [hrep])]
  refine ⟨herr, by simp [applyOp, herr], ?_, ?_⟩ <;> rw [hrep]

/-- Witness for C4: verifying report 1 of `wReportState` a second time (same
verifier, score 80) fails with the already-verified error and keeps score 90
and verifier 1. -/
theorem C4_verify_exactly_once_witness :
    verifyEmissionReport wReportState 1 1 90 true = .ok wVerifiedState ∧
    isVerifier wVerifiedState 1 = true ∧
    (verifyEmissionReport wVerifiedState 1 1 80 false = .error .alreadyVerified ∧
      applyOp wVerifiedState (Op.verifyEmissionReport 1 1 80 false) = wVerifiedState ∧
      (getReport wVerifiedState 1).verificationScore = 90 ∧
      (getReport wVerifiedState 1).verifier = 1) :=
  ⟨by decide, by decide,
   C4_verify_exactly_once wReportState 1 1 90 true wVerifiedState (by decide)
     1 80 false (by decide) (by decide)⟩

/-- C5: a retired credit lot rejects every `tradeCarbonCredit` and every
second `retireCarbonCredit` with the already-retired error and no state
change, and no sequence of further operations ever clears the retired
flag. -/
theorem C5_retirement_terminality (d : Nat) (ops : List Op) (cid : Nat)
    (hret : (getCredit (runOps (initState d) ops) cid).retired = true) :
    (∀ sender mv am,
      tradeCarbonCredit (runOps (initState d) ops) sender mv cid am =
        .error .alreadyRetired ∧
      applyOp (runOps (initState d) ops) (Op.tradeCarbonCredit sender mv cid am) =
        runOps (initState d) ops) ∧
    (∀ sender,
      retireCarbonCredit (runOps (initState d) ops) sender cid =
        .error .alreadyRetired ∧
      applyOp (runOps (initState d) ops) (Op.retireCarbonCredit sender cid) =
        runOps (initState d) ops) ∧
    (∀ more : List Op,
      (getCredit (runOps (runOps (initState d) ops) more) cid).retired = true) := by
  have hwf : KeysWF (runOps (initState d) ops) :=
    KeysWF_runOps _ _ (KeysWF_initState d)
  have hcid : cid ≤ (runOps (initState d) ops).carbonCreditIds :=
    hwf.1 _ (getCredit_mem_of_retired hret)
  refine ⟨?_, ?_, ?_⟩
  · intro sender mv am
    have he := @trade_retired_error _ sender mv _ am hcid hret
    exact ⟨he, by simp [applyOp, he]⟩
  · intro sender
    have he := @retire_retired_error _ sender _ hcid hret
    exact ⟨he, by simp [applyOp, he]⟩
  · intro more
    exact retired_stays_runOps hwf hret more

/-- Witness for C5: after mint-then-retire, lot 1 is retired and both a
trade attempt by 2 and a second retire by the owner fail with the
already-retired error; the flag survives a further report operation. -/
theorem C5_retirement_terminality_witness :
    (getCredit (runOps (initState 1) wRetireTrace) 1).retired = true ∧
    tradeCarbonCredit (runOps (initState 1) wRetireTrace) 2 1000 1 5 =
      .error .alreadyRetired ∧
    retireCarbonCredit (runOps (initState 1) wRetireTrace) 1 1 =
      .error .alreadyRetired ∧
    (getCredit (runOps (runOps (initState 1) wRetireTrace)
      [Op.reportEmissions 3 9 "f" 1 1 [] "h"]) 1).retired = true := by
  have h : (getCredit (runOps (initState 1) wRetireTrace) 1).retired = true := by decide
  have hmain := C5_retirement_terminality 1 wRetireTrace 1 h
  exact ⟨h, (hmain.1 2 1000 5).1, (hmain.2.1 1).1,
    hmain.2.2 [Op.reportEmissions 3 9 "f" 1 1 [] "h"]⟩

/-- C6 (code bug): id 0 is never assigned, yet `validReport` / `validCredit`
only check `id <= counter`, so id 0 slips through: on a fresh deployment,
verifying report 0 succeeds (marking a phantom report verified), trading
credit 0 with amount 0 succeeds (transferring a phantom lot), and retiring
credit 0 fails with the ownership error rather than the invalid-id error;
ids strictly above the counter are rejected as the claim states. -/
theorem C6_zero_id_not_rejected :
    isOkE (verifyEmissionReport (initState 1) 1 0 50 true) = true ∧
    isOkE (tradeCarbonCredit (initState 1) 2 0 0 0) = true ∧
    retireCarbonCredit (initState 1) 2 0 = .error .notCreditOwner ∧
    verifyEmissionReport (initState 1) 1 5 50 true = .error .invalidReportId ∧
    tradeCarbonCredit (initState 1) 2 0 5 1 = .error .invalidCreditId ∧
    retireCarbonCredit (initState 1) 2 5 = .error .invalidCreditId := by decide

/-- C7: a successful `verifyEmissionReport` sets the reporting company's
score to `(old + score) / 2` when passed and to `old / 2` otherwise
(integer division), and marks the report verified with that score and
verifier. -/
theorem C7_score_update (s : ContractState) (sender rid sc : Nat) (passed : Bool)
    (s1 : ContractState) (h : verifyEmissionReport s sender rid sc passed = .ok s1) :
    scoreOf s1 (getReport s rid).company =
      (if passed then (scoreOf s (getReport s rid).company + sc) / 2
       else scoreOf s (getReport s rid).company / 2) ∧
    (getReport s1 rid).verified = true ∧
    (getReport s1 rid).verificationScore = sc ∧
    (getReport s1 rid).verifier = sender := by
  obtain ⟨-, -, -, -, rfl⟩ := verify_ok_iff.mp h
  refine ⟨scoreOf_verifiedState_company, ?_, ?_, ?_⟩ <;>
    rw [getReport_verifiedState_self]

/-- Witness for C7: the spec scenario: report 1000 kg as company 5, verify
with score 90, passed: the company score becomes (0 + 90) / 2 = 45 and the
report is marked verified. -/
theorem C7_score_update_witness :
    verifyEmissionReport wReportState 1 1 90 true = .ok wVerifiedState ∧
    (scoreOf wVerifiedState (getReport wReportState 1).company =
      (if true then (scoreOf wReportState (getReport wReportState 1).company + 90) / 2
       else scoreOf wReportState (getReport wReportState 1).company / 2) ∧
     (getReport wVerifiedState 1).verified = true ∧
     (getReport wVerifiedState 1).verificationScore = 90 ∧
     (getReport wVerifiedState 1).verifier = 1) ∧
    scoreOf wVerifiedState 5 = 45 :=
  ⟨by decide, C7_score_update wReportState 1 1 90 true wVerifiedState (by decide),
   by decide⟩

/-- C8: `mintCarbonCredit` succeeds only if the vintage lies in
[2020, current year] where the current year is computed from the chain clock
as `ts / 365 days + 1970`, and every vintage outside that interval makes it
fail with a ValidationError-kind error. -/
theorem C8_vintage_bound (s : ContractState) (sender ts am ppt : Nat)
    (ch pd : String) (v : Nat) (ct : CreditType) :
    (isOkE (mintCarbonCredit s sender ts am ppt ch pd v ct) = true →
      2020 ≤ v ∧ v ≤ currentYear ts) ∧
    (¬ (2020 ≤ v ∧ v ≤ currentYear ts) →
      isValidationError (errOf (mintCarbonCredit s sender ts am ppt ch pd v ct)) = true) := by
  unfold mintCarbonCredit
  split_ifs with h1 h2
  · refine ⟨fun hok => ?_, fun hbad => ?_⟩
    · simp [isOkE] at hok
    · simp [errOf, isValidationError]
  · refine ⟨fun hok => ?_, fun hbad => ?_⟩
    · simp [isOkE] at hok
    · simp [errOf, isValidationError]
  · refine ⟨fun hok => ⟨by omega, by omega⟩, fun hbad => ?_⟩
    exfalso
    omega

/-- Witness for C8: on a fresh deployment at a 2020 chain time, minting with
vintage 2020 succeeds (and the vintage is inside the bound), while vintage
2030 lies outside the bound and fails with a validation error. -/
theorem C8_vintage_bound_witness :
    (isOkE (mintCarbonCredit (initState 1) 1 1600000000 10 2 "c" "p" 2020
        .RENEWABLE_ENERGY) = true ∧
      (2020 ≤ 2020 ∧ 2020 ≤ currentYear 1600000000)) ∧
    (¬ (2020 ≤ 2030 ∧ 2030 ≤ currentYear 1600000000) ∧
      isValidationError (errOf (mintCarbonCredit (initState 1) 1 1600000000 10 2 "c" "p"
        2030 .RENEWABLE_ENERGY)) = true) :=
  ⟨⟨by decide,
    (C8_vintage_bound (initState 1) 1 1600000000 10 2 "c" "p" 2020
      .RENEWABLE_ENERGY).1 (by decide)⟩,
   ⟨by decide,
    (C8_vintage_bound (initState 1) 1 1600000000 10 2 "c" "p" 2030
      .RENEWABLE_ENERGY).2 (by decide)⟩⟩

/-- C9 amended: `updateDigitalTwin` has no existence check; for a missing
twin the stored owner is the zero address, so any non-zero caller gets the
ownership error (an AuthorizationError), not a NotFoundError; for an
existing twin a non-owner gets the ownership error and the owner of an
inactive twin gets the inactive error; every failure leaves the state
unchanged. -/
theorem C9_update_twin_preconditions (s : ContractState) (sender ts : Nat)
    (tid : String) (ne2 : Nat) :
    (twinStored s tid = false → sender ≠ 0 →
      updateDigitalTwin s sender ts tid ne2 = .error .notTwinOwner ∧
      applyOp s (Op.updateDigitalTwin sender ts tid ne2) = s) ∧
    ((getTwin s tid).owner ≠ sender →
      updateDigitalTwin s sender ts tid ne2 = .error .notTwinOwner ∧
      applyOp s (Op.updateDigitalTwin sender ts tid ne2) = s) ∧
    ((getTwin s tid).owner = sender → (getTwin s tid).active = false →
      updateDigitalTwin s sender ts tid ne2 = .error .twinNotActive ∧
      applyOp s (Op.updateDigitalTwin sender ts tid ne2) = s) := by
  refine ⟨?_, ?_, ?_⟩
  · intro hns hsz
    have hd := twinStored_false_default hns
    have hown : (getTwin s tid).owner ≠ sender := by
      rw [hd]
      intro he
      exact hsz he.symm
    have herr : updateDigitalTwin s sender ts tid ne2 = .error .notTwinOwner := by
      unfold updateDigitalTwin
      rw [if_pos hown]
    exact ⟨herr, by simp [applyOp, herr]⟩
  · intro hown
    have herr : updateDigitalTwin s sender ts tid ne2 = .error .notTwinOwner := by
      unfold updateDigitalTwin
      rw [if_pos hown]
    exact ⟨herr, by simp [applyOp, herr]⟩
  · intro hown hact
    have herr : updateDigitalTwin s sender ts tid ne2 = .error .twinNotActive := by
      unfold updateDigitalTwin
      rw [if_neg (by simp [hown]), if_pos hact]
    exact ⟨herr, by simp [applyOp, herr]⟩

/-- C9 counterexample: the claim as stated fails on the code: updating the
never-created twin "x" by caller 1 fails with the ownership error
(AuthorizationError kind), not with a NotFoundError — the contract has no
existence check at all on this path. -/
theorem C9_counterexample :
    twinStored (initState 1) "x" = false ∧
    updateDigitalTwin (initState 1) 1 0 "x" 5 = .error .notTwinOwner := by decide

/-- Witness for C9's amended claim, covering all three branches: a missing
twin with non-zero caller, an existing twin with a non-owner caller, and an
owner-matching inactive (default) twin. -/
theorem C9_update_twin_preconditions_witness :
    (twinStored (initState 1) "x" = false ∧ (1 : Nat) ≠ 0 ∧
      updateDigitalTwin (initState 1) 1 0 "x" 5 = .error .notTwinOwner) ∧
    ((getTwin wTwinState "plantA").owner ≠ 2 ∧
      updateDigitalTwin wTwinState 2 0 "plantA" 7 = .error .notTwinOwner) ∧
    ((getTwin (initState 1) "y").owner = 0 ∧
      (getTwin (initState 1) "y").active = false ∧
      updateDigitalTwin (initState 1) 0 0 "y" 7 = .error .twinNotActive) :=
  ⟨⟨by decide, by decide,
    ((C9_update_twin_preconditions (initState 1) 1 0 "x" 5).1 (by decide) (by decide)).1⟩,
   ⟨by decide,
    ((C9_update_twin_preconditions wTwinState 2 0 "plantA" 7).2.1 (by decide)).1⟩,
   ⟨by decide, by decide,
    ((C9_update_twin_preconditions (initState 1) 0 0 "y" 7).2.2 (by decide) (by decide)).1⟩⟩

/-- C10 amended: for every non-empty twin key already stored in a reachable
state, any further `createDigitalTwin` under the same key, by any caller,
fails with the duplicate-key error and changes nothing; the empty-string
key is not protected (see the counterexample). -/
theorem C10_duplicate_twin_key (d : Nat) (ops : List Op) (tid : String)
    (h1 : tid ≠ "") (h2 : twinStored (runOps (initState d) ops) tid = true)
    (sender ts be : Nat) (ft dh : String) :
    createDigitalTwin (runOps (initState d) ops) sender ts tid ft be dh =
      .error .twinAlreadyExists ∧
    applyOp (runOps (initState d) ops) (Op.createDigitalTwin sender ts tid ft be dh) =
      runOps (initState d) ops := by
  have hwf := KeysWF_runOps (initState d) ops (KeysWF_initState d)
  have hid : (getTwin (runOps (initState d) ops) tid).twinId = tid :=
    hwf.2.2 _ (twinStored_mem h2)
  have herr : createDigitalTwin (runOps (initState d) ops) sender ts tid ft be dh =
      .error .twinAlreadyExists := by
    unfold createDigitalTwin
    rw [if_pos (by rw [hid]; exact h1)]
  exact ⟨herr, by simp [applyOp, herr]⟩

/-- C10 counterexample: the claim fails on the code for the empty-string
key: after a twin is created under `""`, a second `createDigitalTwin` under
`""` by another caller succeeds and overwrites the existing twin (the
existence sentinel `bytes(twinId).length == 0` cannot see it). -/
theorem C10_counterexample :
    twinStored wEmptyTwinState "" = true ∧
    isOkE (createDigitalTwin wEmptyTwinState 2 7 "" "office" 9 "g") = true ∧
    (getTwin wEmptyTwinState "").owner = 1 ∧
    (getTwin (applyOp wEmptyTwinState (Op.createDigitalTwin 2 7 "" "office" 9 "g"))
      "").owner = 2 := by decide

/-- Witness for C10's amended claim: re-creating the existing non-empty key
"plantA" fails with the duplicate-key error. -/
theorem C10_duplicate_twin_key_witness :
    (("plantA" : String) ≠ "" ∧
      twinStored (runOps (initState 1)
        [Op.createDigitalTwin 1 0 "plantA" "factory" 5 "dh"]) "plantA" = true) ∧
    createDigitalTwin (runOps (initState 1)
        [Op.createDigitalTwin 1 0 "plantA" "factory" 5 "dh"]) 2 9 "plantA" "office" 3
        "zz" = .error .twinAlreadyExists :=
  ⟨⟨by decide, by decide⟩,
   (C10_duplicate_twin_key 1 [Op.createDigitalTwin 1 0 "plantA" "factory" 5 "dh"]
     "plantA" (by decide) (by decide) 2 9 3 "office" "zz").1⟩

end CarbonTracker
